import Mathlib

set_option maxHeartbeats 4000000

/-!
Verification of the bias-only trading desk core (regime, volatility,
momentum, structure, session, risk readers and the bias synthesizer).
Python floats are modelled as exact rationals; dictionaries used by the
synthesizer are modelled as association lists so that a missing key is
observable as a KeyError value rather than an exception.
-/

/-- Model of Python round(x, n): nearest multiple of 10^(-n).
Python uses banker's rounding at exact half ties; this model rounds
half up. Every fact proved below either evaluates away from a tie or
only uses the bound |pyRound q n - q| <= 1/(2*10^n), which holds for
both tie conventions. -/
def pyRound (q : ℚ) (n : ℕ) : ℚ := (Rat.floor (q * 10 ^ n + 1 / 2) : ℚ) / 10 ^ n

/-- Model of the Python substring test (the "in" operator on strings). -/
def strContains (s pat : String) : Bool := decide (pat.data <:+: s.data)

-- ---------------------------------------------------------------------------
-- Report values: Python dict values as seen by the synthesizer.
-- Only string equality tests and string formatting are ever applied to them.
-- ---------------------------------------------------------------------------

/-- A Python value stored under a report key: a string, a number, a boolean,
or a nested dictionary. -/
inductive Val where
  | str (s : String)
  | num (q : ℚ)
  | bool (b : Bool)
  | none
  | obj (fields : List (String × Val))
deriving Repr

/-- Python equality test between a stored value and a string literal:
true only when the value is that string. -/
def Val.eqStr (v : Val) (t : String) : Bool :=
  match v with
  | .str s => decide (s = t)
  | _ => false

/-- Python str() as used in an f-string, for the values that can reach it. -/
def Val.format (v : Val) : String :=
  match v with
  | .str s => s
  | _ => "<value>"

/-- Python dict[key]: the value if the key is present, otherwise a KeyError. -/
def getKey (m : List (String × Val)) (k : String) : Except String Val :=
  match m.lookup k with
  | some v => Except.ok v
  | Option.none => Except.error ("KeyError: " ++ k)

/-- The uniform agent report envelope: status plus the output dictionary
(the fields the synthesizer reads; diagnostic internals are nested under
the key "internals" where the source puts them there). -/
structure AgentReport where
  status : String
  output : List (String × Val)
deriving Repr

/-- The reports dictionary handed to check_synthesis_forbidden, restricted
to the four entries that function reads (regime, volatility, session,
momentum); the other three agents are never accessed by it. -/
structure Reports where
  regime : AgentReport
  volatility : AgentReport
  session : AgentReport
  momentum : AgentReport

-- ---------------------------------------------------------------------------
-- run_all_agents.py: calculate_bias and check_synthesis_forbidden
-- ---------------------------------------------------------------------------

/-- Embedding of calculate_bias from run_all_agents.py (lines 44-110). -/
def calculate_bias (regime momentum volatility session : String) : String :=
  if regime = "CHAOS" then "DO_NOT_TRADE"
  else if volatility = "EXTREME" then "DO_NOT_TRADE"
  else if session ∈ ["OFF_HOURS"] then "DO_NOT_TRADE"
  else if regime = "TREND_UP" ∧ momentum = "ACCELERATING_SHORT" then "DO_NOT_TRADE"
  else if regime = "TREND_DOWN" ∧ momentum = "ACCELERATING_LONG" then "DO_NOT_TRADE"
  else if regime = "RANGE" ∧ momentum ∈ ["ACCELERATING_LONG", "ACCELERATING_SHORT"] then
    "DO_NOT_TRADE"
  else
    let base_bias :=
      if regime = "TREND_UP" then
        if momentum = "ACCELERATING_LONG" then "BULLISH_BIAS"
        else if momentum = "NEUTRAL" then "BULLISH_BIAS_WEAK"
        else if momentum = "DECELERATING" then "NEUTRAL"
        else "NEUTRAL"
      else if regime = "TREND_DOWN" then
        if momentum = "ACCELERATING_SHORT" then "BEARISH_BIAS"
        else if momentum = "NEUTRAL" then "BEARISH_BIAS_WEAK"
        else if momentum = "DECELERATING" then "NEUTRAL"
        else "NEUTRAL"
      else "NEUTRAL"
    let base_bias :=
      if volatility = "ELEVATED" ∧ base_bias ∈ ["BULLISH_BIAS", "BEARISH_BIAS"] then "NEUTRAL"
      else base_bias
    if session = "SESSION_CLOSE_30MIN" then "DO_NOT_TRADE"
    else if session = "ASIA" ∧ base_bias ∈ ["BULLISH_BIAS", "BEARISH_BIAS"] then
      if strContains base_bias "_WEAK" = false then base_bias ++ "_WEAK" else base_bias
    else base_bias

/-- Embedding of check_synthesis_forbidden from run_all_agents.py
(lines 113-150). Dictionary key accesses are explicit, in the source's
evaluation order, so a missing key surfaces as an error value exactly
where Python would raise KeyError. -/
def check_synthesis_forbidden (reports : Reports) : Except String (Bool × Option String) := do
  let regime ← getKey reports.regime.output "regime"
  let volatility ← getKey reports.volatility.output "state"
  let spread ← getKey reports.volatility.output "spread_status"
  let session ← getKey reports.session.output "active_session"
  let boundary ← getKey reports.session.output "boundary_flag"
  if regime.eqStr "CHAOS" then return (true, some "REGIME = CHAOS")
  else if volatility.eqStr "EXTREME" then return (true, some "VOLATILITY = EXTREME")
  else if spread.eqStr "WIDE" || spread.eqStr "EXTREME" then
    return (true, some ("SPREAD = " ++ spread.format))
  else if session.eqStr "OFF_HOURS" then return (true, some "SESSION = OFF_HOURS")
  else if boundary.eqStr "SESSION_CLOSE_30MIN" then
    return (true, some "SESSION CLOSING IN 30 MIN")
  else do
    let momentum ← getKey reports.momentum.output "state"
    if regime.eqStr "TREND_UP" && momentum.eqStr "ACCELERATING_SHORT" then
      return (true, some "CONTRADICTION: TREND_UP vs ACCELERATING_SHORT")
    else if regime.eqStr "TREND_DOWN" && momentum.eqStr "ACCELERATING_LONG" then
      return (true, some "CONTRADICTION: TREND_DOWN vs ACCELERATING_LONG")
    else return (false, Option.none)

/-- Reports carrying exactly the keys check_synthesis_forbidden reads, with
the given headline strings; used to state properties of the veto logic
itself, independent of any key-name mismatch. -/
def mkSynthReports (regime volatility spread session boundary momentum : String) : Reports :=
  ⟨⟨"OK", [("regime", Val.str regime)]⟩,
   ⟨"OK", [("state", Val.str volatility), ("spread_status", Val.str spread)]⟩,
   ⟨"OK", [("active_session", Val.str session), ("boundary_flag", Val.str boundary)]⟩,
   ⟨"OK", [("state", Val.str momentum)]⟩⟩

/-- Modelled from the spec: the list of veto reasons that individually hold,
in the source's check order ("All firing reasons are collected" is the
spec's description of the forbidden verdict). -/
def firingReasons (regime volatility spread session boundary momentum : String) : List String :=
  (if regime = "CHAOS" then ["REGIME = CHAOS"] else []) ++
  (if volatility = "EXTREME" then ["VOLATILITY = EXTREME"] else []) ++
  (if spread = "WIDE" ∨ spread = "EXTREME" then ["SPREAD = " ++ spread] else []) ++
  (if session = "OFF_HOURS" then ["SESSION = OFF_HOURS"] else []) ++
  (if boundary = "SESSION_CLOSE_30MIN" then ["SESSION CLOSING IN 30 MIN"] else []) ++
  (if regime = "TREND_UP" ∧ momentum = "ACCELERATING_SHORT" then
    ["CONTRADICTION: TREND_UP vs ACCELERATING_SHORT"] else []) ++
  (if regime = "TREND_DOWN" ∧ momentum = "ACCELERATING_LONG" then
    ["CONTRADICTION: TREND_DOWN vs ACCELERATING_LONG"] else [])

-- ---------------------------------------------------------------------------
-- session_clock.py: _determine_active_session
-- ---------------------------------------------------------------------------

/-- Embedding of SessionClock._determine_active_session
(session_clock.py lines 277-295). -/
def determine_active_session (asia london new_york : Bool) : String :=
  if london && new_york then "OVERLAP_LONDON_NY"
  else if london then "LONDON"
  else if new_york then "NEW_YORK"
  else if asia then "ASIA"
  else "OFF_HOURS"

/-- The variant of calculate_bias with the session == "SESSION_CLOSE_30MIN"
branch (run_all_agents.py lines 104-105) removed; stated from the spec's
reading that bias is independent of close proximity. Comparing it with
calculate_bias expresses that the branch is dead for real session values. -/
def calculate_bias_without_close_branch (regime momentum volatility session : String) : String :=
  if regime = "CHAOS" then "DO_NOT_TRADE"
  else if volatility = "EXTREME" then "DO_NOT_TRADE"
  else if session ∈ ["OFF_HOURS"] then "DO_NOT_TRADE"
  else if regime = "TREND_UP" ∧ momentum = "ACCELERATING_SHORT" then "DO_NOT_TRADE"
  else if regime = "TREND_DOWN" ∧ momentum = "ACCELERATING_LONG" then "DO_NOT_TRADE"
  else if regime = "RANGE" ∧ momentum ∈ ["ACCELERATING_LONG", "ACCELERATING_SHORT"] then
    "DO_NOT_TRADE"
  else
    let base_bias :=
      if regime = "TREND_UP" then
        if momentum = "ACCELERATING_LONG" then "BULLISH_BIAS"
        else if momentum = "NEUTRAL" then "BULLISH_BIAS_WEAK"
        else if momentum = "DECELERATING" then "NEUTRAL"
        else "NEUTRAL"
      else if regime = "TREND_DOWN" then
        if momentum = "ACCELERATING_SHORT" then "BEARISH_BIAS"
        else if momentum = "NEUTRAL" then "BEARISH_BIAS_WEAK"
        else if momentum = "DECELERATING" then "NEUTRAL"
        else "NEUTRAL"
      else "NEUTRAL"
    let base_bias :=
      if volatility = "ELEVATED" ∧ base_bias ∈ ["BULLISH_BIAS", "BEARISH_BIAS"] then "NEUTRAL"
      else base_bias
    if session = "ASIA" ∧ base_bias ∈ ["BULLISH_BIAS", "BEARISH_BIAS"] then
      if strContains base_bias "_WEAK" = false then base_bias ++ "_WEAK" else base_bias
    else base_bias

/-- Session names SessionClock._determine_active_session can produce. -/
def activeSessionValues : List String :=
  ["ASIA", "LONDON", "NEW_YORK", "OVERLAP_LONDON_NY", "OFF_HOURS"]

-- ---------------------------------------------------------------------------
-- Candles (the OHLC bar data contract)
-- ---------------------------------------------------------------------------

/-- One OHLC candle. The Python dict key "open" is rendered opn ("open" is a
Lean keyword); volume and timestamp are carried by the data layer but never
read by the functions verified here. -/
structure Candle where
  opn : ℚ
  high : ℚ
  low : ℚ
  close : ℚ
deriving Repr, DecidableEq

def cDefault : Candle := ⟨0, 0, 0, 0⟩

/-- A candle is well-formed when its low bounds the high and the close. -/
def WellFormed (c : Candle) : Prop := c.low ≤ c.high ∧ c.low ≤ c.close ∧ c.close ≤ c.high

/-- Per-step invariant: each directional movement is nonnegative and at
most the step's true range. -/
def StepOK (t : ℚ × ℚ × ℚ) : Prop :=
  0 ≤ t.2.1 ∧ t.2.1 ≤ t.1 ∧ 0 ≤ t.2.2 ∧ t.2.2 ≤ t.1

-- ---------------------------------------------------------------------------
-- regime_classifier.py
-- ---------------------------------------------------------------------------

/-- True range of a step, from regime_classifier.py lines 34-38 (the same
formula appears in volatility_assessor.py lines 41-45). -/
def trueRange (prev cur : Candle) : ℚ :=
  max (cur.high - cur.low) (max |cur.high - prev.close| |cur.low - prev.close|)

/-- Plus directional movement of a step (regime_classifier.py line 45). -/
def dmPlus (prev cur : Candle) : ℚ :=
  let up_move := cur.high - prev.high
  let down_move := prev.low - cur.low
  if up_move > down_move ∧ up_move > 0 then up_move else 0

/-- Minus directional movement of a step (regime_classifier.py line 46). -/
def dmMinus (prev cur : Candle) : ℚ :=
  let up_move := cur.high - prev.high
  let down_move := prev.low - cur.low
  if down_move > up_move ∧ down_move > 0 then down_move else 0

/-- Per-step (true range, +DM, -DM) triples: the loop body of calculate_adx
over consecutive candle pairs (regime_classifier.py lines 26-49). -/
def adxSteps (candles : List Candle) : List (ℚ × ℚ × ℚ) :=
  (candles.zip candles.tail).map (fun pc => (trueRange pc.1 pc.2, dmPlus pc.1 pc.2, dmMinus pc.1 pc.2))

/-- The Wilder-smoothing loop of calculate_adx (regime_classifier.py
lines 62-80): consumes the remaining step triples, carrying the three
smoothed sums, and emits one (DX, +DI, -DI) triple per step. -/
def dxRec (period : ℕ) (str spdm smdm : ℚ) : List (ℚ × ℚ × ℚ) → List (ℚ × ℚ × ℚ)
  | [] => []
  | (tr, pdm, mdm) :: rest =>
    let str' := str - str / period + tr
    let spdm' := spdm - spdm / period + pdm
    let smdm' := smdm - smdm / period + mdm
    let plus_di := if str' > 0 then 100 * spdm' / str' else 0
    let minus_di := if str' > 0 then 100 * smdm' / str' else 0
    let di_sum := plus_di + minus_di
    let dx := if di_sum > 0 then 100 * |plus_di - minus_di| / di_sum else 0
    (dx, plus_di, minus_di) :: dxRec period str' spdm' smdm' rest

/-- The dx_list local of calculate_adx, exposed for stating the DX bound. -/
def adxDxList (candles : List Candle) (period : ℕ) : List (ℚ × ℚ × ℚ) :=
  let steps := adxSteps candles
  dxRec period ((steps.map (fun s => s.1)).take period).sum
    ((steps.map (fun s => s.2.1)).take period).sum
    ((steps.map (fun s => s.2.2)).take period).sum
    (steps.drop period)

/-- Embedding of RegimeClassifier.calculate_adx (regime_classifier.py
lines 16-92), returning (ADX, +DI, -DI). -/
def calculate_adx (candles : List Candle) (period : ℕ) : ℚ × ℚ × ℚ :=
  if candles.length < period + 1 then (0, 0, 0)
  else
    let tr_list := (adxSteps candles).map (fun s => s.1)
    if tr_list.length < period then (0, 0, 0)
    else
      let dx_list := adxDxList candles period
      if dx_list.length < period then
        match dx_list.getLast? with
        | some t => t
        | Option.none => (0, 0, 0)
      else
        let adx := ((dx_list.drop (dx_list.length - period)).map (fun d => d.1)).sum / period
        match dx_list.getLast? with
        | some t => (adx, t.2.1, t.2.2)
        | Option.none => (0, 0, 0)

/-- Embedding of RegimeClassifier.classify (regime_classifier.py
lines 94-153); lookback is the hard-coded 14. Python int() truncates
toward zero, which coincides with the floor on the nonnegative adx. -/
def RegimeClassifier.classify (candles : List Candle) : AgentReport :=
  if candles = [] ∨ candles.length < 14 + 1 then
    ⟨"ERROR",
     [("regime", Val.str "UNKNOWN"), ("duration_candles", Val.num 0),
      ("prior_regime", Val.str "UNKNOWN"),
      ("internals", Val.obj [("adx", Val.num 0), ("plus_di", Val.num 0), ("minus_di", Val.num 0)])]⟩
  else
    let t := calculate_adx candles 14
    let adx := t.1
    let plus_di := t.2.1
    let minus_di := t.2.2
    let regime :=
      if adx < 20 then "RANGE"
      else if adx ≥ 20 ∧ adx < 25 then
        if plus_di > minus_di then "TREND_UP"
        else if minus_di > plus_di then "TREND_DOWN"
        else "RANGE"
      else if adx ≥ 25 ∧ adx < 50 then
        if plus_di > minus_di then "TREND_UP" else "TREND_DOWN"
      else
        if |plus_di - minus_di| < 10 then "CHAOS"
        else if plus_di > minus_di then "TREND_UP"
        else "TREND_DOWN"
    let duration : ℚ := if adx > 20 then ((min (Rat.floor (adx / 5)) 20 : ℤ) : ℚ) else 1
    ⟨"OK",
     [("regime", Val.str regime), ("duration_candles", Val.num duration),
      ("prior_regime", Val.str "RANGE"),
      ("trend_strength",
        Val.str (if adx ≥ 25 then "STRONG" else if adx ≥ 15 then "WEAK" else "NONE")),
      ("internals", Val.obj
        [("adx", Val.num (pyRound adx 2)), ("plus_di", Val.num (pyRound plus_di 2)),
         ("minus_di", Val.num (pyRound minus_di 2))])]⟩

-- ---------------------------------------------------------------------------
-- volatility_assessor.py
-- ---------------------------------------------------------------------------

/-- Embedding of VolatilityAssessor.calculate_atr (volatility_assessor.py
lines 25-57). -/
def calculate_atr (candles : List Candle) (period : ℕ) : ℚ :=
  if candles.length < period + 1 then 0
  else
    let tr_list := (candles.zip candles.tail).map (fun pc => trueRange pc.1 pc.2)
    if tr_list.length < period then
      if tr_list = [] then 0 else tr_list.sum / tr_list.length
    else
      let atr0 := (tr_list.take period).sum / period
      (tr_list.drop period).foldl (fun atr tr => (atr * ((period : ℚ) - 1) + tr) / period) atr0

/-- Embedding of VolatilityAssessor.calculate_baseline_atr
(volatility_assessor.py lines 59-66). -/
def calculate_baseline_atr (candles : List Candle) (period lookback : ℕ) : ℚ :=
  if candles.length < lookback then calculate_atr candles period
  else
    let baseline_candles :=
      if candles.length > lookback * 2 then candles.take (candles.length - lookback)
      else candles.take lookback
    calculate_atr baseline_candles period

/-- Embedding of VolatilityAssessor.assess (volatility_assessor.py
lines 68-135). Instrument constants: pip_size 0.01, tier thresholds
100/300/500 pips, spread thresholds 0.50/1.00 pips, default spread 0.30. -/
def VolatilityAssessor.assess (candles : List Candle) (spread : Option ℚ) : AgentReport :=
  if candles = [] ∨ candles.length < 2 then
    ⟨"ERROR",
     [("volatility_state", Val.str "UNKNOWN"), ("atr_current_pips", Val.num 0),
      ("atr_baseline_pips", Val.num 0), ("spread_pips", Val.num 0),
      ("spread_status", Val.str "UNKNOWN")]⟩
  else
    let atr_current := calculate_atr candles 14
    let atr_current_pips := atr_current / (1 / 100)
    let atr_baseline := calculate_baseline_atr candles 14 50
    let atr_baseline_pips := atr_baseline / (1 / 100)
    let volatility_state :=
      if atr_current_pips < 100 then "LOW"
      else if atr_current_pips < 300 then "NORMAL"
      else if atr_current_pips < 500 then "ELEVATED"
      else "EXTREME"
    let volatility_state :=
      if atr_baseline > 0 ∧ atr_current / atr_baseline > 2 ∧ volatility_state ≠ "EXTREME" then
        "ELEVATED"
      else volatility_state
    let volatility_state :=
      if atr_baseline > 0 ∧ atr_current / atr_baseline > 3 then "EXTREME" else volatility_state
    let spread_pips := spread.getD (3 / 10)
    let spread_status :=
      if spread_pips ≤ 1 / 2 then "ACCEPTABLE"
      else if spread_pips ≤ 1 then "WIDE"
      else "EXTREME"
    ⟨"OK",
     [("volatility_state", Val.str volatility_state),
      ("atr_current_pips", Val.num (pyRound atr_current_pips 2)),
      ("atr_baseline_pips", Val.num (pyRound atr_baseline_pips 2)),
      ("atr_ratio",
        Val.num (if atr_baseline > 0 then pyRound (atr_current / atr_baseline) 2 else 1)),
      ("spread_pips", Val.num (pyRound spread_pips 2)),
      ("spread_status", Val.str spread_status),
      ("internals", Val.obj
        [("atr_raw", Val.num (pyRound atr_current 4)),
         ("atr_baseline_raw", Val.num (pyRound atr_baseline 4)),
         ("period", Val.num 14)])]⟩

-- ---------------------------------------------------------------------------
-- momentum_reader.py: calculate_velocity
-- ---------------------------------------------------------------------------

/-- Embedding of calculate_velocity (momentum_reader.py lines 106-130).
The slice prices[-period:] is the trailing period-element window; for
period = 0 the Python source would divide by zero, which every caller and
every theorem below excludes. -/
def calculate_velocity (prices : List ℚ) (period : ℕ) : ℚ :=
  if prices.length < period then 0
  else
    let recent := prices.drop (prices.length - period)
    let total_movement := recent.getLastD 0 - recent.headD 0
    pyRound (total_movement / period) 4

/-- A price series rising linearly with per-bar slope k from base a. -/
def linSeries (a k : ℚ) (n : ℕ) : List ℚ := (List.range n).map (fun (i : ℕ) => a + k * (i : ℚ))

-- ---------------------------------------------------------------------------
-- risk_calculator.py
-- ---------------------------------------------------------------------------

/-- Embedding of calculate_pip_value (risk_calculator.py lines 45-71). -/
def calculate_pip_value (instrument : String) (lot_size : ℚ) : ℚ :=
  if strContains instrument "XAU" then 1 * lot_size else 10 * lot_size

/-- Embedding of calculate_position_size (risk_calculator.py lines 74-96). -/
def calculate_position_size (risk_amount stop_distance_pips pip_value_per_lot : ℚ) : ℚ :=
  if stop_distance_pips ≤ 0 ∨ pip_value_per_lot ≤ 0 then 0
  else pyRound (risk_amount / (stop_distance_pips * pip_value_per_lot)) 2

/-- Embedding of calculate_risk_for_position (risk_calculator.py
lines 99-112). -/
def calculate_risk_for_position (lot_size stop_distance_pips pip_value_per_lot : ℚ) : ℚ :=
  pyRound (lot_size * stop_distance_pips * pip_value_per_lot) 2

/-- The specific_calculation record of RiskCalculator.calculate. -/
structure SpecificCalc where
  stop_pips : ℚ
  lot_size : ℚ
  risk_dollars : ℚ
deriving Repr, DecidableEq

/-- The output fields of RiskCalculator.calculate involved in the risk
claims; the fixed-ladder position_size_table and the position-count fields
are independent of them and are not modelled. -/
structure RiskOutput where
  equity : ℚ
  risk_per_trade_dollars : ℚ
  risk_per_trade_percent : ℚ
  daily_pnl : ℚ
  daily_limit_remaining : ℚ
  daily_limit_breached : Bool
  specific_calculation : Option SpecificCalc
deriving Repr

/-- Embedding of RiskCalculator.calculate (risk_calculator.py
lines 153-230) on the modelled fields. A stop distance of None or 0 is
falsy in Python, so no specific_calculation is produced for it. -/
def RiskCalculator.calculate (equity risk_per_trade max_daily_loss daily_pnl pip_value_per_lot : ℚ)
    (stop_distance_pips : Option ℚ) : RiskOutput :=
  let risk_per_trade_dollars := equity * risk_per_trade
  let max_daily_loss_dollars := equity * max_daily_loss
  let daily_limit_remaining := max_daily_loss_dollars + daily_pnl
  let specific_calculation :=
    match stop_distance_pips with
    | some s =>
      if s ≠ 0 then
        let lot_size := calculate_position_size risk_per_trade_dollars s pip_value_per_lot
        some (SpecificCalc.mk s lot_size (calculate_risk_for_position lot_size s pip_value_per_lot))
      else Option.none
    | Option.none => Option.none
  ⟨equity, pyRound risk_per_trade_dollars 2, risk_per_trade * 100, daily_pnl,
   pyRound daily_limit_remaining 2, decide (daily_limit_remaining ≤ 0), specific_calculation⟩

-- ---------------------------------------------------------------------------
-- structure_mapper.py
-- ---------------------------------------------------------------------------

def PIP_SIZE : ℚ := 1 / 100

def STRUCTURE_MIN_DISTANCE_PIPS : ℚ := 10

/-- The swing-high test at index i (find_swing_highs loop body,
structure_mapper.py lines 65-80): strictly higher high than the lb candles
before and the rb candles after. -/
def swing_high_at (candles : List Candle) (lb rb i : ℕ) : Bool :=
  decide (lb ≤ i) && decide (i + rb < candles.length) &&
  ((List.range lb).all fun j =>
    decide ((candles.getD (i - (j + 1)) cDefault).high < (candles.getD i cDefault).high)) &&
  ((List.range rb).all fun j =>
    decide ((candles.getD (i + (j + 1)) cDefault).high < (candles.getD i cDefault).high))

/-- The swing-low test at index i (find_swing_lows loop body,
structure_mapper.py lines 107-122). -/
def swing_low_at (candles : List Candle) (lb rb i : ℕ) : Bool :=
  decide (lb ≤ i) && decide (i + rb < candles.length) &&
  ((List.range lb).all fun j =>
    decide ((candles.getD (i - (j + 1)) cDefault).low > (candles.getD i cDefault).low)) &&
  ((List.range rb).all fun j =>
    decide ((candles.getD (i + (j + 1)) cDefault).low > (candles.getD i cDefault).low))

/-- Embedding of find_swing_highs (structure_mapper.py lines 47-87),
reduced to the swing prices: the index and timestamp the source also
records are never read downstream. -/
def find_swing_highs (candles : List Candle) (lb rb : ℕ) : List ℚ :=
  ((List.range candles.length).filter (fun i => swing_high_at candles lb rb i)).map
    (fun i => (candles.getD i cDefault).high)

/-- Embedding of find_swing_lows (structure_mapper.py lines 90-129). -/
def find_swing_lows (candles : List Candle) (lb rb : ℕ) : List ℚ :=
  ((List.range candles.length).filter (fun i => swing_low_at candles lb rb i)).map
    (fun i => (candles.getD i cDefault).low)

/-- Arithmetic mean of a price list (the cluster average). -/
def mean (l : List ℚ) : ℚ := l.sum / l.length

/-- The clustering scan of cluster_levels (structure_mapper.py
lines 151-165). cur is the current cluster, newest element first (the
source appends at the end and reads current_cluster[-1]; only that element
and the sum and size of the cluster are ever used, so the orientation is
immaterial). -/
def clusterAux (d : ℚ) (cur : List ℚ) : List ℚ → List ℚ
  | [] => [mean cur]
  | x :: xs =>
    if x - cur.headD 0 ≤ d then clusterAux d (x :: cur) xs
    else mean cur :: clusterAux d [x] xs

/-- Embedding of cluster_levels (structure_mapper.py lines 132-167). -/
def cluster_levels (levels : List ℚ) (min_distance : ℚ) : List ℚ :=
  match List.insertionSort (fun a b => a ≤ b) levels with
  | [] => []
  | x :: xs => clusterAux min_distance [x] xs

/-- Embedding of determine_level_strength (structure_mapper.py
lines 170-189). -/
def determine_level_strength (level_price : ℚ) (all_swing_prices : List ℚ)
    (touch_threshold : ℚ) : String :=
  let touches := (all_swing_prices.filter
    (fun p => decide (|p - level_price| ≤ touch_threshold))).length
  if touches ≥ 2 then "MAJOR" else "MINOR"

/-- Embedding of determine_level_validity (structure_mapper.py
lines 192-239). The source loop sets tested when a candle straddles the
level and broken when such a candle also closes beyond it by more than the
threshold; neither flag is ever cleared. -/
def determine_level_validity (level_price : ℚ) (candles : List Candle)
    (threshold : ℚ) : String :=
  if candles.length < 10 then "FRESH"
  else
    let recent := candles.drop (candles.length - 10)
    let tested := recent.any (fun c => decide (c.low ≤ level_price ∧ level_price ≤ c.high))
    let broken := recent.any (fun c => decide ((c.low ≤ level_price ∧ level_price ≤ c.high) ∧
      (c.close > level_price + threshold ∨ c.close < level_price - threshold)))
    if broken then "INVALID" else if tested then "USED" else "FRESH"

/-- One reported structure level (price rounded to 2 decimals, distance in
pips rounded to 1). -/
structure LevelDetail where
  price : ℚ
  strength : String
  validity : String
  distance_pips : ℚ
deriving Repr

/-- The output fields of StructureMapper.map_structure the structure claims
are about. -/
structure StructureOutput where
  status : String
  current_price : ℚ
  levels_above : List LevelDetail
  levels_below : List LevelDetail
deriving Repr

/-- Embedding of StructureMapper.map_structure (structure_mapper.py
lines 264-353) with lookback-independent parts:
left_bars = right_bars = 3, min distance 10 pips of size 0.01. Python's
sorted(..., reverse=True) is modelled as the reverse of the ascending
sort, which is the same value list. -/
def map_structure (candles : List Candle) : StructureOutput :=
  if candles.length < 10 then ⟨"INSUFFICIENT_DATA", 0, [], []⟩
  else
    let current_price := (candles.getLastD cDefault).close
    let swing_highs := find_swing_highs candles 3 3
    let swing_lows := find_swing_lows candles 3 3
    let all_swings := swing_highs ++ swing_lows
    let min_distance := STRUCTURE_MIN_DISTANCE_PIPS * PIP_SIZE
    let clustered_levels := cluster_levels all_swings min_distance
    let levels_above :=
      (List.insertionSort (fun a b => a ≤ b)
        (clustered_levels.filter (fun l => decide (l > current_price)))).take 3
    let levels_below :=
      ((List.insertionSort (fun a b => a ≤ b)
        (clustered_levels.filter (fun l => decide (l < current_price)))).reverse).take 3
    let touch_threshold := STRUCTURE_MIN_DISTANCE_PIPS * PIP_SIZE
    ⟨"ANALYSIS_COMPLETE", pyRound current_price 2,
     levels_above.map (fun price => LevelDetail.mk (pyRound price 2)
       (determine_level_strength price all_swings touch_threshold)
       (determine_level_validity price candles touch_threshold)
       (pyRound ((price - current_price) / PIP_SIZE) 1)),
     levels_below.map (fun price => LevelDetail.mk (pyRound price 2)
       (determine_level_strength price all_swings touch_threshold)
       (determine_level_validity price candles touch_threshold)
       (pyRound ((current_price - price) / PIP_SIZE) 1))⟩

-- ---------------------------------------------------------------------------
-- Helper lemmas
-- ---------------------------------------------------------------------------

theorem ratFloor_eq_intFloor (q : ℚ) : (Rat.floor q : ℤ) = ⌊q⌋ := by
  rw [Rat.floor_def' q, Rat.floor_def]

theorem pyRound_sub_abs (q : ℚ) (n : ℕ) : |pyRound q n - q| ≤ 1 / (2 * 10 ^ n) := by
  unfold pyRound
  rw [ratFloor_eq_intFloor]
  have hm : (0 : ℚ) < 10 ^ n := by positivity
  have h2 := Int.floor_le (q * 10 ^ n + 1 / 2)
  have h3 := Int.lt_floor_add_one (q * 10 ^ n + 1 / 2)
  have habs : |(⌊q * 10 ^ n + 1 / 2⌋ : ℚ) - q * 10 ^ n| ≤ 1 / 2 :=
    abs_le.2 ⟨by linarith, by linarith⟩
  have hrw : (⌊q * 10 ^ n + 1 / 2⌋ : ℚ) / 10 ^ n - q
      = ((⌊q * 10 ^ n + 1 / 2⌋ : ℚ) - q * 10 ^ n) / 10 ^ n := by
    field_simp
    ring
  rw [hrw, abs_div, abs_of_pos hm]
  rw [div_le_div_iff hm (by positivity : (0:ℚ) < 2 * 10 ^ n)]
  calc |(⌊q * 10 ^ n + 1 / 2⌋ : ℚ) - q * 10 ^ n| * (2 * 10 ^ n)
      ≤ (1 / 2) * (2 * 10 ^ n) := mul_le_mul_of_nonneg_right habs (by positivity)
    _ = 1 * 10 ^ n := by ring

-- ---------------------------------------------------------------------------
-- C3: the bias enumeration
-- ---------------------------------------------------------------------------

/-- C3, counterexample: with regime TREND_UP, momentum NEUTRAL, normal
volatility and the LONDON session, calculate_bias returns
BULLISH_BIAS_WEAK, which is outside the claimed four-value enumeration
(and the claimed "exactly BULLISH_BIAS for momentum NEUTRAL" also fails
at this input). -/
theorem bias_enum_counterexample :
    calculate_bias "TREND_UP" "NEUTRAL" "NORMAL" "LONDON" = "BULLISH_BIAS_WEAK" ∧
    "BULLISH_BIAS_WEAK" ∉ ["BULLISH_BIAS", "BEARISH_BIAS", "NEUTRAL", "DO_NOT_TRADE"] := by
  exact ⟨by decide, by decide⟩

/-- C3, amended: the bias is always one of the six values BULLISH_BIAS,
BEARISH_BIAS, BULLISH_BIAS_WEAK, BEARISH_BIAS_WEAK, NEUTRAL, DO_NOT_TRADE.
When regime direction and momentum agree, volatility is neither ELEVATED
nor EXTREME and the session is none of OFF_HOURS, SESSION_CLOSE_30MIN or
ASIA, the result is exactly BULLISH_BIAS resp. BEARISH_BIAS; with momentum
NEUTRAL as the weaker confirmation the result is the corresponding _WEAK
variant, not the plain bias. -/
theorem bias_base_mem (regime momentum : String) :
    (if regime = "TREND_UP" then
        if momentum = "ACCELERATING_LONG" then "BULLISH_BIAS"
        else if momentum = "NEUTRAL" then "BULLISH_BIAS_WEAK"
        else if momentum = "DECELERATING" then "NEUTRAL"
        else "NEUTRAL"
      else if regime = "TREND_DOWN" then
        if momentum = "ACCELERATING_SHORT" then "BEARISH_BIAS"
        else if momentum = "NEUTRAL" then "BEARISH_BIAS_WEAK"
        else if momentum = "DECELERATING" then "NEUTRAL"
        else "NEUTRAL"
      else "NEUTRAL") ∈
      ["BULLISH_BIAS", "BEARISH_BIAS", "BULLISH_BIAS_WEAK", "BEARISH_BIAS_WEAK",
       "NEUTRAL", "DO_NOT_TRADE"] := by
  split_ifs <;> decide

theorem bias_vol_step_mem (volatility b : String)
    (hb : b ∈ ["BULLISH_BIAS", "BEARISH_BIAS", "BULLISH_BIAS_WEAK", "BEARISH_BIAS_WEAK",
      "NEUTRAL", "DO_NOT_TRADE"]) :
    (if volatility = "ELEVATED" ∧ b ∈ ["BULLISH_BIAS", "BEARISH_BIAS"] then "NEUTRAL"
      else b) ∈
      ["BULLISH_BIAS", "BEARISH_BIAS", "BULLISH_BIAS_WEAK", "BEARISH_BIAS_WEAK",
       "NEUTRAL", "DO_NOT_TRADE"] := by
  split_ifs with h
  · decide
  · exact hb

theorem bias_asia_step_mem (session b : String)
    (hb : b ∈ ["BULLISH_BIAS", "BEARISH_BIAS", "BULLISH_BIAS_WEAK", "BEARISH_BIAS_WEAK",
      "NEUTRAL", "DO_NOT_TRADE"]) :
    (if session = "ASIA" ∧ b ∈ ["BULLISH_BIAS", "BEARISH_BIAS"] then
        if strContains b "_WEAK" = false then b ++ "_WEAK" else b
      else b) ∈
      ["BULLISH_BIAS", "BEARISH_BIAS", "BULLISH_BIAS_WEAK", "BEARISH_BIAS_WEAK",
       "NEUTRAL", "DO_NOT_TRADE"] := by
  split_ifs with h h2
  · rcases List.mem_cons.1 h.2 with rfl | h3
    · decide
    · rcases List.mem_cons.1 h3 with rfl | h4
      · decide
      · simp at h4
  · exact hb
  · exact hb

theorem bias_enum_amended (regime momentum volatility session : String) :
    calculate_bias regime momentum volatility session ∈
      ["BULLISH_BIAS", "BEARISH_BIAS", "BULLISH_BIAS_WEAK", "BEARISH_BIAS_WEAK",
       "NEUTRAL", "DO_NOT_TRADE"] ∧
    (regime = "TREND_UP" → momentum = "ACCELERATING_LONG" → volatility ≠ "EXTREME" →
      volatility ≠ "ELEVATED" → session ∉ ["OFF_HOURS", "SESSION_CLOSE_30MIN", "ASIA"] →
      calculate_bias regime momentum volatility session = "BULLISH_BIAS") ∧
    (regime = "TREND_DOWN" → momentum = "ACCELERATING_SHORT" → volatility ≠ "EXTREME" →
      volatility ≠ "ELEVATED" → session ∉ ["OFF_HOURS", "SESSION_CLOSE_30MIN", "ASIA"] →
      calculate_bias regime momentum volatility session = "BEARISH_BIAS") ∧
    (regime = "TREND_UP" → momentum = "NEUTRAL" → volatility ≠ "EXTREME" →
      session ∉ ["OFF_HOURS", "SESSION_CLOSE_30MIN"] →
      calculate_bias regime momentum volatility session = "BULLISH_BIAS_WEAK") ∧
    (regime = "TREND_DOWN" → momentum = "NEUTRAL" → volatility ≠ "EXTREME" →
      session ∉ ["OFF_HOURS", "SESSION_CLOSE_30MIN"] →
      calculate_bias regime momentum volatility session = "BEARISH_BIAS_WEAK") := by
  refine ⟨?_, ?_, ?_, ?_, ?_⟩
  · unfold calculate_bias
    split
    · decide
    split
    · decide
    split
    · decide
    split
    · decide
    split
    · decide
    split
    · decide
    dsimp only
    split
    · decide
    exact bias_asia_step_mem _ _ (bias_vol_step_mem _ _ (bias_base_mem _ _))
  · rintro rfl rfl hv1 hv2 hs
    simp only [List.mem_cons, List.mem_singleton, not_or] at hs
    obtain ⟨hs1, hs2, hs3, -⟩ := hs
    simp [calculate_bias, hv1, hv2, hs1, hs2, hs3]
  · rintro rfl rfl hv1 hv2 hs
    simp only [List.mem_cons, List.mem_singleton, not_or] at hs
    obtain ⟨hs1, hs2, hs3, -⟩ := hs
    simp [calculate_bias, hv1, hv2, hs1, hs2, hs3]
  · rintro rfl rfl hv1 hs
    simp only [List.mem_cons, List.mem_singleton, not_or] at hs
    obtain ⟨hs1, hs2, -⟩ := hs
    simp [calculate_bias, hv1, hs1, hs2]
  · rintro rfl rfl hv1 hs
    simp only [List.mem_cons, List.mem_singleton, not_or] at hs
    obtain ⟨hs1, hs2, -⟩ := hs
    simp [calculate_bias, hv1, hs1, hs2]

/-- C3, witness for the amended theorem at a concrete input. -/
theorem bias_enum_amended_witness :
    calculate_bias "TREND_UP" "ACCELERATING_LONG" "NORMAL" "LONDON" = "BULLISH_BIAS" := by
  have h := (bias_enum_amended "TREND_UP" "ACCELERATING_LONG" "NORMAL" "LONDON").2.1
  exact h (by decide) (by decide) (by decide) (by decide) (by decide)

-- ---------------------------------------------------------------------------
-- C10: the session-close branch of calculate_bias is dead
-- ---------------------------------------------------------------------------

/-- C10: every session value SessionClock._determine_active_session can
produce is one of ASIA, LONDON, NEW_YORK, OVERLAP_LONDON_NY, OFF_HOURS, and
on all of them calculate_bias agrees with the variant whose
SESSION_CLOSE_30MIN branch is removed: that branch is never taken, so the
bias is independent of proximity to session close and only
check_synthesis_forbidden (via the boundary flag) can veto on it. -/
theorem session_close_branch_dead (asia london new_york : Bool)
    (regime momentum volatility : String) :
    determine_active_session asia london new_york ∈ activeSessionValues ∧
    calculate_bias regime momentum volatility (determine_active_session asia london new_york)
      = calculate_bias_without_close_branch regime momentum volatility
          (determine_active_session asia london new_york) := by
  cases asia <;> cases london <;> cases new_york <;>
    exact ⟨by decide, by simp [determine_active_session, calculate_bias,
      calculate_bias_without_close_branch]⟩

-- ---------------------------------------------------------------------------
-- C2: only the first firing reason is reported
-- ---------------------------------------------------------------------------

/-- C2, counterexample: with regime CHAOS and spread EXTREME both firing,
check_synthesis_forbidden reports only REGIME = CHAOS; the spread reason
fires but is absent from the result, so the forbidden verdict does not
contain every firing reason. -/
theorem forbidden_single_reason_counterexample :
    check_synthesis_forbidden
        (mkSynthReports "CHAOS" "NORMAL" "EXTREME" "LONDON" "NONE" "NEUTRAL")
      = Except.ok (true, some "REGIME = CHAOS") ∧
    "SPREAD = EXTREME" ∈ firingReasons "CHAOS" "NORMAL" "EXTREME" "LONDON" "NONE" "NEUTRAL" ∧
    "SPREAD = EXTREME" ≠ "REGIME = CHAOS" := by
  refine ⟨rfl, by decide, by decide⟩

/-- C2, amended: check_synthesis_forbidden is deterministic, but it reports
exactly the FIRST firing reason in its fixed check order (CHAOS regime,
EXTREME volatility, WIDE or EXTREME spread, OFF_HOURS session, session
close boundary, regime-momentum contradictions), that is the head of the
firing-reason list, never the full set. -/
theorem forbidden_first_firing_reason (r v sp se b m : String) :
    check_synthesis_forbidden (mkSynthReports r v sp se b m)
      = Except.ok (decide (firingReasons r v sp se b m ≠ []),
          (firingReasons r v sp se b m).head?) := by
  by_cases h1 : r = "CHAOS" <;>
  by_cases h2 : v = "EXTREME" <;>
  by_cases h3 : sp = "WIDE" ∨ sp = "EXTREME" <;>
  by_cases h4 : se = "OFF_HOURS" <;>
  by_cases h5 : b = "SESSION_CLOSE_30MIN" <;>
  by_cases h6 : r = "TREND_UP" ∧ m = "ACCELERATING_SHORT" <;>
  by_cases h7 : r = "TREND_DOWN" ∧ m = "ACCELERATING_LONG" <;>
  simp_all [check_synthesis_forbidden, mkSynthReports, getKey, Val.eqStr, Val.format,
    firingReasons, Bind.bind, Except.bind, pure, Except.pure, List.lookup] <;>
  (try (split_ifs <;> simp_all))

-- ---------------------------------------------------------------------------
-- C1: synthesis on the readers' real outputs raises KeyError
-- ---------------------------------------------------------------------------

/-- C1: for EVERY candle history fed to RegimeClassifier and EVERY candle
history and spread fed to VolatilityAssessor (both branches of each,
error or success), check_synthesis_forbidden on the resulting reports
fails with KeyError on the key "state": VolatilityAssessor emits the key
"volatility_state", but the synthesizer reads output["state"], so the
synthesis step never completes on the readers' own reports. -/
theorem synthesis_forbidden_keyerror (rc vc : List Candle) (spread : Option ℚ)
    (sess mom : AgentReport) :
    check_synthesis_forbidden
        ⟨RegimeClassifier.classify rc, VolatilityAssessor.assess vc spread, sess, mom⟩
      = Except.error ("KeyError: state") := by
  unfold check_synthesis_forbidden
  by_cases h1 : rc = [] ∨ rc.length < 14 + 1 <;>
  by_cases h2 : vc = [] ∨ vc.length < 2 <;>
    simp [RegimeClassifier.classify, VolatilityAssessor.assess, h1, h2, getKey,
      List.lookup, Bind.bind, Except.bind]

-- ---------------------------------------------------------------------------
-- C8: RegimeClassifier on short input
-- ---------------------------------------------------------------------------

/-- C8: for every candle sequence with fewer than lookback+1 = 15 candles
(the empty sequence included), RegimeClassifier.classify returns a report
with status ERROR, regime UNKNOWN and internal ADX 0; the embedding is a
total function, matching the source's single guarded early return, so no
exception is possible on this path. -/
theorem classify_short_input (candles : List Candle) (h : candles.length < 15) :
    (RegimeClassifier.classify candles).status = "ERROR" ∧
    (RegimeClassifier.classify candles).output.lookup "regime" = some (Val.str "UNKNOWN") ∧
    (RegimeClassifier.classify candles).output.lookup "internals"
      = some (Val.obj [("adx", Val.num 0), ("plus_di", Val.num 0), ("minus_di", Val.num 0)]) := by
  unfold RegimeClassifier.classify
  rw [if_pos (Or.inr h)]
  exact ⟨rfl, rfl, rfl⟩

/-- C8, witness: the empty candle list. -/
theorem classify_short_input_witness :
    ([] : List Candle).length < 15 ∧
    ((RegimeClassifier.classify []).status = "ERROR" ∧
     (RegimeClassifier.classify []).output.lookup "regime" = some (Val.str "UNKNOWN") ∧
     (RegimeClassifier.classify []).output.lookup "internals"
       = some (Val.obj [("adx", Val.num 0), ("plus_di", Val.num 0), ("minus_di", Val.num 0)])) :=
  ⟨by decide, classify_short_input [] (by decide)⟩

-- ---------------------------------------------------------------------------
-- C9: RiskCalculator formulas
-- ---------------------------------------------------------------------------

/-- C9: RiskCalculator reports risk-per-trade dollars equal to
equity x riskFraction (rounded to cents) and, for a positive stop and pip
value, a position size of riskDollars / (stopPips x pipValuePerLot) rounded
to two-decimal lot precision; in particular equity 10000, risk fraction
0.01, a 50-pip stop and pip value 1.0 give riskDollars 100.00 and lot size
2.00. -/
theorem risk_calculator_formulas (equity frac mdl pnl pv stop : ℚ)
    (hstop : 0 < stop) (hpv : 0 < pv) :
    ((RiskCalculator.calculate equity frac mdl pnl pv (some stop)).risk_per_trade_dollars
        = pyRound (equity * frac) 2 ∧
      (RiskCalculator.calculate equity frac mdl pnl pv (some stop)).specific_calculation
        = some (SpecificCalc.mk stop (pyRound (equity * frac / (stop * pv)) 2)
            (calculate_risk_for_position (pyRound (equity * frac / (stop * pv)) 2) stop pv))) ∧
    ((RiskCalculator.calculate 10000 (1 / 100) (3 / 100) (-50) 1
        (some 50)).risk_per_trade_dollars = 100 ∧
      ((RiskCalculator.calculate 10000 (1 / 100) (3 / 100) (-50) 1
          (some 50)).specific_calculation.map (fun sc => sc.lot_size)) = some 2) := by
  have hcond : ¬(stop ≤ 0 ∨ pv ≤ 0) := by push_neg; exact ⟨hstop, hpv⟩
  constructor
  · constructor
    · rfl
    · simp [RiskCalculator.calculate, calculate_position_size, hcond, ne_of_gt hstop]
  · constructor
    · show pyRound (10000 * (1 / 100)) 2 = 100
      rw [pyRound, ratFloor_eq_intFloor]
      norm_num
    · have h50 : ¬((50 : ℚ) ≤ 0 ∨ (1 : ℚ) ≤ 0) := by norm_num
      have h50b : ((50 : ℚ) ≠ 0) := by norm_num
      simp only [RiskCalculator.calculate, calculate_position_size, h50, h50b, if_true,
        if_false, ite_true, ite_false, ne_eq, not_false_iff, Option.map_some]
      rw [show ((10000 : ℚ) * (1 / 100) / (50 * 1)) = 2 by norm_num]
      rw [pyRound, ratFloor_eq_intFloor]
      norm_num

/-- C9, witness for the general formulas at the concrete scenario. -/
theorem risk_calculator_formulas_witness :
    (0 : ℚ) < 50 ∧ (0 : ℚ) < 1 ∧
    ((RiskCalculator.calculate 10000 (1 / 100) (3 / 100) (-50) 1
        (some 50)).risk_per_trade_dollars = 100 ∧
      ((RiskCalculator.calculate 10000 (1 / 100) (3 / 100) (-50) 1
          (some 50)).specific_calculation.map (fun sc => sc.lot_size)) = some 2) :=
  ⟨by norm_num, by norm_num,
   (risk_calculator_formulas 10000 (1 / 100) (3 / 100) (-50) 1 50
     (by norm_num) (by norm_num)).2⟩

-- ---------------------------------------------------------------------------
-- C4: velocity on a linear price series
-- ---------------------------------------------------------------------------

theorem linSeries_length (a k : ℚ) (n : ℕ) : (linSeries a k n).length = n := by
  rw [linSeries, List.length_map, List.length_range]

/-- C4, amended: on a price series rising linearly with per-bar slope k,
the trailing p-bar window spans p-1 bar steps, so calculate_velocity
returns k x (p-1)/p (rounded to 4 decimals), not k; it approaches k only
as p grows. -/
theorem velocity_linear_amended (a k : ℚ) (p n : ℕ) (h1 : 1 ≤ p) (h2 : p ≤ n) :
    calculate_velocity (linSeries a k n) p = pyRound (k * ((p : ℚ) - 1) / p) 4 := by
  have hn1 : 1 ≤ n := h1.trans h2
  have hlen := linSeries_length a k n
  have hnp : n - p < n := by omega
  have hd : ((linSeries a k n).drop (n - p)).length = p := by
    rw [List.length_drop, hlen]
    omega
  have hget : ∀ i, i < n → (linSeries a k n)[i]? = some (a + k * i) := by
    intro i hi
    rw [linSeries, List.getElem?_map, List.getElem?_range hi]
    rfl
  have hhead : ((linSeries a k n).drop (n - p)).headD 0 = a + k * ((n - p : ℕ) : ℚ) := by
    rw [List.headD_eq_head?, List.head?_eq_getElem?, List.getElem?_drop, Nat.add_zero,
      hget (n - p) hnp]
    rfl
  have hlast : ((linSeries a k n).drop (n - p)).getLastD 0 = a + k * ((n - 1 : ℕ) : ℚ) := by
    rw [List.getLastD_eq_getLast?, List.getLast?_eq_getElem?, hd, List.getElem?_drop,
      show n - p + (p - 1) = n - 1 by omega, hget (n - 1) (by omega)]
    rfl
  unfold calculate_velocity
  rw [hlen, if_neg (not_lt.2 h2)]
  dsimp only
  rw [hhead, hlast]
  rw [show ((n - 1 : ℕ) : ℚ) = (n : ℚ) - 1 by push_cast [Nat.cast_sub hn1]; ring]
  rw [show ((n - p : ℕ) : ℚ) = (n : ℚ) - p by push_cast [Nat.cast_sub h2]; ring]
  congr 1
  ring

/-- C4, counterexample: the linear series 0,1,2,3 with slope 1 and the
full window p = 4 gives velocity 3/4, which is not 1 and differs from it
by far more than the 4-decimal rounding step. -/
theorem velocity_linear_counterexample :
    calculate_velocity (linSeries 0 1 4) 4 = 3 / 4 ∧ (3 / 4 : ℚ) ≠ 1 ∧
    (1 : ℚ) / 10000 < |(3 / 4 : ℚ) - 1| := by
  refine ⟨?_, by norm_num, by rw [abs_sub_comm, abs_of_pos (by norm_num : (0:ℚ) < 1 - 3/4)]; norm_num⟩
  have hls : linSeries 0 1 4 = [0 + 1 * 0, 0 + 1 * 1, 0 + 1 * 2, 0 + 1 * 3] := by
    simp [linSeries, List.range_succ]
  rw [hls, show ([0 + 1 * 0, 0 + 1 * 1, 0 + 1 * 2, 0 + 1 * 3] : List ℚ) = [0, 1, 2, 3] by norm_num]
  unfold calculate_velocity
  rw [if_neg (by decide : ¬(([0, 1, 2, 3] : List ℚ).length < 4))]
  dsimp only
  rw [show (([0, 1, 2, 3] : List ℚ).drop (([0, 1, 2, 3] : List ℚ).length - 4)).getLastD 0 = 3
    from rfl]
  rw [show (([0, 1, 2, 3] : List ℚ).drop (([0, 1, 2, 3] : List ℚ).length - 4)).headD 0 = 0
    from rfl]
  rw [pyRound, ratFloor_eq_intFloor]
  norm_num

/-- C4, witness for the amended theorem at slope 1, window 4, length 4. -/
theorem velocity_linear_amended_witness :
    1 ≤ 4 ∧ 4 ≤ 4 ∧
    calculate_velocity (linSeries 0 1 4) 4 = pyRound (1 * ((4 : ℚ) - 1) / 4) 4 :=
  ⟨by decide, by decide, velocity_linear_amended 0 1 4 4 (by decide) (by decide)⟩

-- ---------------------------------------------------------------------------
-- C7: clustering idempotence (and the ordering facts behind C6)
-- ---------------------------------------------------------------------------

theorem sum_ge_length_mul {l : List ℚ} {z : ℚ} (h : ∀ a ∈ l, z ≤ a) :
    z * l.length ≤ l.sum := by
  induction l with
  | nil => simp
  | cons a t ih =>
    have ha := h a (List.mem_cons_self a t)
    have ht := ih (fun b hb => h b (List.mem_cons_of_mem a hb))
    simp only [List.length_cons, List.sum_cons]
    push_cast
    nlinarith

theorem sum_le_length_mul {l : List ℚ} {z : ℚ} (h : ∀ a ∈ l, a ≤ z) :
    l.sum ≤ z * l.length := by
  induction l with
  | nil => simp
  | cons a t ih =>
    have ha := h a (List.mem_cons_self a t)
    have ht := ih (fun b hb => h b (List.mem_cons_of_mem a hb))
    simp only [List.length_cons, List.sum_cons]
    push_cast
    nlinarith

theorem le_mean {l : List ℚ} (hl : l ≠ []) {z : ℚ} (h : ∀ a ∈ l, z ≤ a) : z ≤ mean l := by
  have hlen : (0 : ℚ) < l.length := by
    have := List.length_pos.2 hl
    exact_mod_cast this
  rw [mean, le_div_iff hlen]
  exact sum_ge_length_mul h

theorem mean_le {l : List ℚ} (hl : l ≠ []) {z : ℚ} (h : ∀ a ∈ l, a ≤ z) : mean l ≤ z := by
  have hlen : (0 : ℚ) < l.length := by
    have := List.length_pos.2 hl
    exact_mod_cast this
  rw [mean, div_le_iff hlen]
  exact sum_le_length_mul h

theorem mean_single (x : ℚ) : mean [x] = x := by
  simp [mean]

theorem headD_mem {l : List ℚ} (hl : l ≠ []) : l.headD 0 ∈ l := by
  cases l with
  | nil => exact absurd rfl hl
  | cons a t => exact List.mem_cons_self a t

theorem sorted_headD_le {l : List ℚ} (hl : l ≠ []) (hs : List.Sorted (fun a b => a ≤ b) l) :
    ∀ b ∈ l, l.headD 0 ≤ b := by
  cases l with
  | nil => exact absurd rfl hl
  | cons a t =>
    intro b hb
    rcases List.mem_cons.1 hb with rfl | hbt
    · exact le_refl b
    · exact (List.sorted_cons.1 hs).1 b hbt

theorem clusterAux_spec (d : ℚ) : ∀ (xs cur : List ℚ), cur ≠ [] →
    (∀ a ∈ cur, a ≤ cur.headD 0) →
    List.Sorted (fun a b => a ≤ b) xs →
    (∀ b ∈ xs, cur.headD 0 ≤ b) →
    (clusterAux d cur xs ≠ [] ∧
     List.Sorted (fun a b => a ≤ b) (clusterAux d cur xs) ∧
     List.Chain' (fun a b => a + d < b) (clusterAux d cur xs) ∧
     (∀ z, (∀ a ∈ cur, z ≤ a) → z ≤ (clusterAux d cur xs).headD 0)) := by
  intro xs
  induction xs with
  | nil =>
    intro cur hcur hbound _ _
    refine ⟨by simp [clusterAux], by simp [clusterAux], by simp [clusterAux], ?_⟩
    intro z hz
    simpa [clusterAux] using le_mean hcur hz
  | cons x xs ih =>
    intro cur hcur hbound hsorted hlink
    have hx : cur.headD 0 ≤ x := hlink x (List.mem_cons_self x xs)
    have hsorted' : List.Sorted (fun a b => a ≤ b) xs := (List.sorted_cons.1 hsorted).2
    have hxxs : ∀ b ∈ xs, x ≤ b := (List.sorted_cons.1 hsorted).1
    by_cases hc : x - cur.headD 0 ≤ d
    · have hres : clusterAux d cur (x :: xs) = clusterAux d (x :: cur) xs := by
        rw [clusterAux, if_pos hc]
      obtain ⟨h1, h2, h3, h4⟩ := ih (x :: cur) (by simp)
        (by
          intro a ha
          rcases List.mem_cons.1 ha with rfl | hac
          · simp
          · simpa using le_trans (hbound a hac) hx)
        hsorted'
        (by
          intro b hb
          simpa using hxxs b hb)
      rw [hres]
      refine ⟨h1, h2, h3, ?_⟩
      intro z hz
      apply h4
      intro a ha
      rcases List.mem_cons.1 ha with rfl | hac
      · exact le_trans (hz (cur.headD 0) (headD_mem hcur)) hx
      · exact hz a hac
    · have hres : clusterAux d cur (x :: xs) = mean cur :: clusterAux d [x] xs := by
        rw [clusterAux, if_neg hc]
      obtain ⟨h1, h2, h3, h4⟩ := ih [x] (by simp)
        (by intro a ha; simp at ha; simp [ha])
        hsorted'
        (by intro b hb; simpa using hxxs b hb)
      have hxhead : x ≤ (clusterAux d [x] xs).headD 0 := by
        apply h4
        intro a ha
        simp at ha
        simp [ha]
      have hmean_le : mean cur ≤ cur.headD 0 := mean_le hcur hbound
      have hxd : cur.headD 0 + d < x := by linarith
      rw [hres]
      refine ⟨by simp, ?_, ?_, ?_⟩
      · rw [List.sorted_cons]
        refine ⟨?_, h2⟩
        intro b hb
        have hhb := sorted_headD_le h1 h2 b hb
        calc mean cur ≤ cur.headD 0 := hmean_le
          _ ≤ x := hx
          _ ≤ (clusterAux d [x] xs).headD 0 := hxhead
          _ ≤ b := hhb
      · rw [List.chain'_cons']
        refine ⟨?_, h3⟩
        intro y hy
        have hyhead : (clusterAux d [x] xs).headD 0 = y := by
          cases hcl : clusterAux d [x] xs with
          | nil => rw [hcl] at hy; simp at hy
          | cons c cs =>
            rw [hcl] at hy
            simp at hy
            simp [hy]
        calc mean cur + d ≤ cur.headD 0 + d := by linarith
          _ < x := hxd
          _ ≤ (clusterAux d [x] xs).headD 0 := hxhead
          _ = y := hyhead
      · intro z hz
        simpa using le_mean hcur hz

theorem cluster_levels_sorted_chain (levels : List ℚ) (d : ℚ) :
    List.Sorted (fun a b => a ≤ b) (cluster_levels levels d) ∧
    List.Chain' (fun a b => a + d < b) (cluster_levels levels d) := by
  unfold cluster_levels
  cases h : List.insertionSort (fun a b => a ≤ b) levels with
  | nil => simp
  | cons x xs =>
    have hsorted : List.Sorted (fun a b => a ≤ b) (x :: xs) := by
      rw [← h]
      exact List.sorted_insertionSort _ levels
    obtain ⟨-, hs, hc, -⟩ := clusterAux_spec d xs [x] (by simp)
      (by intro a ha; simp at ha; simp [ha])
      (List.sorted_cons.1 hsorted).2
      (by intro b hb; simpa using (List.sorted_cons.1 hsorted).1 b hb)
    exact ⟨hs, hc⟩

theorem clusterAux_chain_id (d : ℚ) : ∀ (xs : List ℚ) (x : ℚ),
    List.Chain' (fun a b => a + d < b) (x :: xs) → clusterAux d [x] xs = x :: xs := by
  intro xs
  induction xs with
  | nil =>
    intro x _
    simp [clusterAux, mean_single]
  | cons y ys ih =>
    intro x hc
    have h1 : x + d < y := (List.chain'_cons.1 hc).1
    rw [clusterAux, if_neg (by simp; linarith), mean_single]
    rw [ih y (List.chain'_cons.1 hc).2]

/-- C7: clustering is idempotent: for every list of level prices and every
minimum distance, applying cluster_levels to its own output returns the
same list; the output is weakly ascending with consecutive gaps exceeding
the minimum distance, so a second pass puts every level in its own
cluster. -/
theorem cluster_levels_idempotent (levels : List ℚ) (d : ℚ) :
    cluster_levels (cluster_levels levels d) d = cluster_levels levels d := by
  obtain ⟨hs, hc⟩ := cluster_levels_sorted_chain levels d
  have hsort_eq : List.insertionSort (fun a b => a ≤ b) (cluster_levels levels d)
      = cluster_levels levels d :=
    List.eq_of_perm_of_sorted (List.perm_insertionSort _ _)
      (List.sorted_insertionSort _ _) hs
  conv_lhs => rw [cluster_levels, hsort_eq]
  cases hcl : cluster_levels levels d with
  | nil => rfl
  | cons x xs =>
    rw [hcl] at hc
    exact clusterAux_chain_id d xs x hc

-- ---------------------------------------------------------------------------
-- C6: ordering and separation of reported structure levels
-- ---------------------------------------------------------------------------

theorem chain_sep_pairwise {d : ℚ} : ∀ {l : List ℚ}, List.Sorted (fun a b => a ≤ b) l →
    List.Chain' (fun a b => a + d < b) l → List.Pairwise (fun a b => a + d < b) l := by
  intro l
  induction l with
  | nil => intro _ _; exact List.Pairwise.nil
  | cons a t ih =>
    intro hs hc
    have hst := List.sorted_cons.1 hs
    refine List.pairwise_cons.2 ⟨?_, ih hst.2 hc.tail⟩
    intro b hb
    cases t with
    | nil => simp at hb
    | cons c cs =>
      have hac : a + d < c := (List.chain'_cons.1 hc).1
      have hcb : c ≤ b := sorted_headD_le (by simp) hst.2 b hb
      linarith

theorem pyRound_lt_of_gap {a b : ℚ} (h : a + 1 / 10 < b) : pyRound a 2 < pyRound b 2 := by
  have ha := pyRound_sub_abs a 2
  have hb := pyRound_sub_abs b 2
  rw [abs_le] at ha hb
  norm_num at ha hb
  linarith [ha.1, ha.2, hb.1, hb.2]

/-- C6: for every candle sequence, the reported levels-above prices are
strictly ascending (nearest the current price first) and the levels-below
prices strictly descending, and any two distinct clustered level prices
differ by more than the configured minimum distance
minDistance = min_distance_pips x pip_size = 0.1. -/
theorem structure_levels_ordered (candles : List Candle) :
    List.Pairwise (fun a b => a < b)
      (((map_structure candles).levels_above).map (fun l => l.price)) ∧
    List.Pairwise (fun a b => a > b)
      (((map_structure candles).levels_below).map (fun l => l.price)) ∧
    (∀ a ∈ cluster_levels (find_swing_highs candles 3 3 ++ find_swing_lows candles 3 3)
        (STRUCTURE_MIN_DISTANCE_PIPS * PIP_SIZE),
     ∀ b ∈ cluster_levels (find_swing_highs candles 3 3 ++ find_swing_lows candles 3 3)
        (STRUCTURE_MIN_DISTANCE_PIPS * PIP_SIZE),
     a ≠ b → STRUCTURE_MIN_DISTANCE_PIPS * PIP_SIZE < |a - b|) := by
  set d : ℚ := STRUCTURE_MIN_DISTANCE_PIPS * PIP_SIZE with hd
  have hdval : d = 1 / 10 := by norm_num [hd, STRUCTURE_MIN_DISTANCE_PIPS, PIP_SIZE]
  set swings := find_swing_highs candles 3 3 ++ find_swing_lows candles 3 3 with hsw
  obtain ⟨hsorted, hchain⟩ := cluster_levels_sorted_chain swings d
  have hpair : List.Pairwise (fun a b => a + d < b) (cluster_levels swings d) :=
    chain_sep_pairwise hsorted hchain
  refine ⟨?_, ?_, ?_⟩
  · -- levels above: strictly ascending prices
    unfold map_structure
    by_cases hlen : candles.length < 10
    · rw [if_pos hlen]
      simp
    · rw [if_neg hlen]
      dsimp only
      set cp := (candles.getLastD cDefault).close with hcp
      have hs0 : List.Sorted (fun a b => a ≤ b)
          ((cluster_levels swings d).filter (fun l => decide (l > cp))) :=
        hsorted.filter _
      have hp0 : List.Pairwise (fun a b => a + d < b)
          ((cluster_levels swings d).filter (fun l => decide (l > cp))) :=
        hpair.filter _
      have hsort_eq : List.insertionSort (fun a b => a ≤ b)
          ((cluster_levels swings d).filter (fun l => decide (l > cp)))
          = (cluster_levels swings d).filter (fun l => decide (l > cp)) :=
        List.eq_of_perm_of_sorted (List.perm_insertionSort _ _)
          (List.sorted_insertionSort _ _) hs0
      rw [hsort_eq, List.map_map]
      have hptake : List.Pairwise (fun a b => a + d < b)
          (((cluster_levels swings d).filter (fun l => decide (l > cp))).take 3) :=
        List.Pairwise.sublist (List.take_sublist 3 _) hp0
      rw [List.pairwise_map]
      refine hptake.imp ?_
      intro a b hab
      show pyRound a 2 < pyRound b 2
      exact pyRound_lt_of_gap (by rw [hdval] at hab; exact hab)
  · -- levels below: strictly descending prices
    unfold map_structure
    by_cases hlen : candles.length < 10
    · rw [if_pos hlen]
      simp
    · rw [if_neg hlen]
      dsimp only
      set cp := (candles.getLastD cDefault).close with hcp
      have hs0 : List.Sorted (fun a b => a ≤ b)
          ((cluster_levels swings d).filter (fun l => decide (l < cp))) :=
        hsorted.filter _
      have hp0 : List.Pairwise (fun a b => a + d < b)
          ((cluster_levels swings d).filter (fun l => decide (l < cp))) :=
        hpair.filter _
      have hsort_eq : List.insertionSort (fun a b => a ≤ b)
          ((cluster_levels swings d).filter (fun l => decide (l < cp)))
          = (cluster_levels swings d).filter (fun l => decide (l < cp)) :=
        List.eq_of_perm_of_sorted (List.perm_insertionSort _ _)
          (List.sorted_insertionSort _ _) hs0
      rw [hsort_eq, List.map_map]
      have hprev : List.Pairwise (fun a b => b + d < a)
          (((cluster_levels swings d).filter (fun l => decide (l < cp))).reverse) :=
        List.pairwise_reverse.2 hp0
      have hptake : List.Pairwise (fun a b => b + d < a)
          ((((cluster_levels swings d).filter (fun l => decide (l < cp))).reverse).take 3) :=
        List.Pairwise.sublist (List.take_sublist 3 _) hprev
      rw [List.pairwise_map]
      refine hptake.imp ?_
      intro a b hab
      show pyRound a 2 > pyRound b 2
      exact pyRound_lt_of_gap (by rw [hdval] at hab; exact hab)
  · -- clustered levels pairwise separated by more than the minimum distance
    have hsym : List.Pairwise (fun a b => d < |a - b|) (cluster_levels swings d) := by
      refine hpair.imp ?_
      intro a b hab
      have hdpos : (0 : ℚ) ≤ d := by rw [hdval]; norm_num
      have : a < b := by linarith
      rw [abs_sub_comm, abs_of_pos (by linarith : (0:ℚ) < b - a)]
      linarith
    intro a ha b hb hne
    exact List.Pairwise.forall (fun x y hxy => by rwa [abs_sub_comm] at hxy) hsym ha hb hne

-- ---------------------------------------------------------------------------
-- C5: ADX, DI and DX bounds
-- ---------------------------------------------------------------------------

theorem adxSteps_ok (candles : List Candle) (hwf : ∀ c ∈ candles, WellFormed c) :
    ∀ t ∈ adxSteps candles, StepOK t := by
  intro t ht
  rw [adxSteps] at ht
  rcases List.mem_map.1 ht with ⟨pc, hpc, rfl⟩
  obtain ⟨hp, hctail⟩ := List.of_mem_zip hpc
  have hc : pc.2 ∈ candles := List.tail_subset candles hctail
  obtain ⟨hlh_p, hlc_p, hch_p⟩ := hwf pc.1 hp
  obtain ⟨hlh_c, hlc_c, hch_c⟩ := hwf pc.2 hc
  have hB : |pc.2.high - pc.1.close| ≤ trueRange pc.1 pc.2 :=
    le_trans (le_max_left _ _) (le_max_right _ _)
  have hC : |pc.2.low - pc.1.close| ≤ trueRange pc.1 pc.2 :=
    le_trans (le_max_right _ _) (le_max_right _ _)
  have htr0 : 0 ≤ trueRange pc.1 pc.2 := le_trans (abs_nonneg _) hB
  refine ⟨?_, ?_, ?_, ?_⟩
  · unfold dmPlus
    dsimp only
    split_ifs with h
    · linarith [h.2]
    · linarith
  · unfold dmPlus
    dsimp only
    split_ifs with h
    · have h1 : pc.2.high - pc.1.high ≤ pc.2.high - pc.1.close := by linarith
      have h2 : pc.2.high - pc.1.close ≤ |pc.2.high - pc.1.close| := le_abs_self _
      linarith
    · exact htr0
  · unfold dmMinus
    dsimp only
    split_ifs with h
    · linarith [h.2]
    · linarith
  · unfold dmMinus
    dsimp only
    split_ifs with h
    · have h1 : pc.1.low - pc.2.low ≤ pc.1.close - pc.2.low := by linarith
      have h2 : pc.1.close - pc.2.low ≤ |pc.2.low - pc.1.close| := by
        rw [abs_sub_comm]
        exact le_abs_self _
      linarith
    · exact htr0

theorem dxRec_bounds (period : ℕ) (hp : 1 ≤ period) :
    ∀ (ts : List (ℚ × ℚ × ℚ)) (str spdm smdm : ℚ),
      0 ≤ spdm → spdm ≤ str → 0 ≤ smdm → smdm ≤ str →
      (∀ t ∈ ts, StepOK t) →
      ∀ u ∈ dxRec period str spdm smdm ts,
        (0 ≤ u.1 ∧ u.1 ≤ 100) ∧ (0 ≤ u.2.1 ∧ u.2.1 ≤ 100) ∧ (0 ≤ u.2.2 ∧ u.2.2 ≤ 100) := by
  intro ts
  induction ts with
  | nil =>
    intro str spdm smdm _ _ _ _ _ u hu
    simp [dxRec] at hu
  | cons t ts ih =>
    intro str spdm smdm h1 h2 h3 h4 hts u hu
    obtain ⟨tr, pdm, mdm⟩ := t
    obtain ⟨hpdm0, hpdmtr, hmdm0, hmdmtr⟩ := hts (tr, pdm, mdm) (List.mem_cons_self _ _)
    have htr0 : 0 ≤ tr := le_trans hpdm0 hpdmtr
    have hper : (1 : ℚ) ≤ (period : ℚ) := by exact_mod_cast hp
    have hperpos : (0 : ℚ) < (period : ℚ) := lt_of_lt_of_le one_pos hper
    have hstr0 : 0 ≤ str := le_trans h1 h2
    have hfrac : (0 : ℚ) ≤ 1 - 1 / (period : ℚ) := by
      have : 1 / (period : ℚ) ≤ 1 := by
        rw [div_le_one hperpos]
        exact hper
      linarith
    have hstrkey : str - str / period = str * (1 - 1 / (period : ℚ)) := by ring
    have hspdmkey : spdm - spdm / period = spdm * (1 - 1 / (period : ℚ)) := by ring
    have hsmdmkey : smdm - smdm / period = smdm * (1 - 1 / (period : ℚ)) := by ring
    have hmul1 : spdm * (1 - 1 / (period : ℚ)) ≤ str * (1 - 1 / (period : ℚ)) :=
      mul_le_mul_of_nonneg_right h2 hfrac
    have hmul2 : smdm * (1 - 1 / (period : ℚ)) ≤ str * (1 - 1 / (period : ℚ)) :=
      mul_le_mul_of_nonneg_right h4 hfrac
    have hmul3 : 0 ≤ spdm * (1 - 1 / (period : ℚ)) := mul_nonneg h1 hfrac
    have hmul4 : 0 ≤ smdm * (1 - 1 / (period : ℚ)) := mul_nonneg h3 hfrac
    have h1' : 0 ≤ spdm - spdm / period + pdm := by rw [hspdmkey]; linarith
    have h2' : spdm - spdm / period + pdm ≤ str - str / period + tr := by
      rw [hspdmkey, hstrkey]; linarith
    have h3' : 0 ≤ smdm - smdm / period + mdm := by rw [hsmdmkey]; linarith
    have h4' : smdm - smdm / period + mdm ≤ str - str / period + tr := by
      rw [hsmdmkey, hstrkey]; linarith
    rw [dxRec] at hu
    rcases List.mem_cons.1 hu with rfl | hurest
    · -- the newly emitted (dx, plus_di, minus_di)
      set str' := str - str / (period : ℚ) + tr with hstr'
      set spdm' := spdm - spdm / (period : ℚ) + pdm with hspdm'
      set smdm' := smdm - smdm / (period : ℚ) + mdm with hsmdm'
      have hdi : ∀ v, 0 ≤ v → v ≤ str' →
          0 ≤ (if str' > 0 then 100 * v / str' else 0) ∧
          (if str' > 0 then 100 * v / str' else 0) ≤ 100 := by
        intro v hv0 hvs
        split_ifs with hpos
        · constructor
          · positivity
          · rw [div_le_iff hpos]
            linarith
        · norm_num
      have hdi1 := hdi spdm' h1' h2'
      have hdi2 := hdi smdm' h3' h4'
      refine ⟨?_, hdi1, hdi2⟩
      dsimp only
      set pdi := if str' > 0 then 100 * spdm' / str' else 0 with hpdi
      set mdi := if str' > 0 then 100 * smdm' / str' else 0 with hmdi
      split_ifs with hsum
      · constructor
        · positivity
        · rw [div_le_iff hsum]
          have habs : |pdi - mdi| ≤ pdi + mdi := by
            rw [abs_le]
            constructor <;> [linarith [hdi1.1, hdi2.1]; linarith [hdi1.1, hdi2.1]]
          linarith
      · norm_num
    · exact ih (str - str / period + tr) (spdm - spdm / period + pdm)
        (smdm - smdm / period + mdm) h1' h2' h3' h4'
        (fun t ht => hts t (List.mem_cons_of_mem _ ht)) u hurest

theorem adxDxList_bounds (candles : List Candle) (period : ℕ) (hp : 1 ≤ period)
    (hwf : ∀ c ∈ candles, WellFormed c) :
    ∀ u ∈ adxDxList candles period,
      (0 ≤ u.1 ∧ u.1 ≤ 100) ∧ (0 ≤ u.2.1 ∧ u.2.1 ≤ 100) ∧ (0 ≤ u.2.2 ∧ u.2.2 ≤ 100) := by
  have hsteps := adxSteps_ok candles hwf
  rw [adxDxList]
  apply dxRec_bounds period hp
  · rw [← List.map_take]
    apply List.sum_nonneg
    intro x hx
    rcases List.mem_map.1 hx with ⟨t, ht, rfl⟩
    exact (hsteps t (List.mem_of_mem_take ht)).1
  · rw [← List.map_take, ← List.map_take]
    apply List.sum_le_sum
    intro t ht
    exact (hsteps t (List.mem_of_mem_take ht)).2.1
  · rw [← List.map_take]
    apply List.sum_nonneg
    intro x hx
    rcases List.mem_map.1 hx with ⟨t, ht, rfl⟩
    exact (hsteps t (List.mem_of_mem_take ht)).2.2.1
  · rw [← List.map_take, ← List.map_take]
    apply List.sum_le_sum
    intro t ht
    exact (hsteps t (List.mem_of_mem_take ht)).2.2.2
  · intro t ht
    exact hsteps t (List.mem_of_mem_drop ht)

/-- C5: for every sequence of well-formed candles (low <= high and
low <= close <= high) and every period >= 1, the ADX, +DI and -DI values
returned by RegimeClassifier.calculate_adx all lie in [0, 100], and every
intermediate (DX, +DI, -DI) triple of the smoothing loop lies in [0, 100]
componentwise. -/
theorem adx_bounds (candles : List Candle) (period : ℕ) (hp : 1 ≤ period)
    (hwf : ∀ c ∈ candles, WellFormed c) :
    (0 ≤ (calculate_adx candles period).1 ∧ (calculate_adx candles period).1 ≤ 100) ∧
    (0 ≤ (calculate_adx candles period).2.1 ∧ (calculate_adx candles period).2.1 ≤ 100) ∧
    (0 ≤ (calculate_adx candles period).2.2 ∧ (calculate_adx candles period).2.2 ≤ 100) ∧
    (∀ u ∈ adxDxList candles period,
      (0 ≤ u.1 ∧ u.1 ≤ 100) ∧ (0 ≤ u.2.1 ∧ u.2.1 ≤ 100) ∧ (0 ≤ u.2.2 ∧ u.2.2 ≤ 100)) := by
  have hdx := adxDxList_bounds candles period hp hwf
  have hper : (1 : ℚ) ≤ (period : ℚ) := by exact_mod_cast hp
  have hperpos : (0 : ℚ) < (period : ℚ) := lt_of_lt_of_le one_pos hper
  suffices h : (0 ≤ (calculate_adx candles period).1 ∧ (calculate_adx candles period).1 ≤ 100) ∧
      (0 ≤ (calculate_adx candles period).2.1 ∧ (calculate_adx candles period).2.1 ≤ 100) ∧
      (0 ≤ (calculate_adx candles period).2.2 ∧ (calculate_adx candles period).2.2 ≤ 100) by
    exact ⟨h.1, h.2.1, h.2.2, hdx⟩
  unfold calculate_adx
  by_cases hg1 : candles.length < period + 1
  · rw [if_pos hg1]
    norm_num
  · rw [if_neg hg1]
    dsimp only
    by_cases hg2 : ((adxSteps candles).map (fun s => s.1)).length < period
    · rw [if_pos hg2]
      norm_num
    · rw [if_neg hg2]
      by_cases hg3 : (adxDxList candles period).length < period
      · rw [if_pos hg3]
        cases hlast : (adxDxList candles period).getLast? with
        | none =>
          exact ⟨⟨le_refl _, show (0 : ℚ) ≤ 100 by norm_num⟩,
            ⟨le_refl _, show (0 : ℚ) ≤ 100 by norm_num⟩,
            le_refl _, show (0 : ℚ) ≤ 100 by norm_num⟩
        | some t =>
          have hti := hdx t (List.mem_of_mem_getLast? hlast)
          exact ⟨hti.1, hti.2.1, hti.2.2⟩
      · rw [if_neg hg3]
        cases hlast : (adxDxList candles period).getLast? with
        | none =>
          exact ⟨⟨le_refl _, show (0 : ℚ) ≤ 100 by norm_num⟩,
            ⟨le_refl _, show (0 : ℚ) ≤ 100 by norm_num⟩,
            le_refl _, show (0 : ℚ) ≤ 100 by norm_num⟩
        | some t =>
          have hti := hdx t (List.mem_of_mem_getLast? hlast)
          have hplen : period ≤ (adxDxList candles period).length := le_of_not_lt hg3
          have hlen : (((adxDxList candles period).drop
              ((adxDxList candles period).length - period)).map (fun d => d.1)).length
              = period := by
            rw [List.length_map, List.length_drop]
            omega
          have hmem : ∀ x ∈ ((adxDxList candles period).drop
              ((adxDxList candles period).length - period)).map (fun d => d.1),
              0 ≤ x ∧ x ≤ 100 := by
            intro x hx
            rcases List.mem_map.1 hx with ⟨u, hu, rfl⟩
            exact (hdx u (List.mem_of_mem_drop hu)).1
          have hsum0 : 0 ≤ (((adxDxList candles period).drop
              ((adxDxList candles period).length - period)).map (fun d => d.1)).sum :=
            List.sum_nonneg (fun x hx => (hmem x hx).1)
          have hsum100 : (((adxDxList candles period).drop
              ((adxDxList candles period).length - period)).map (fun d => d.1)).sum
              ≤ 100 * period := by
            have := sum_le_length_mul
              (l := ((adxDxList candles period).drop
                ((adxDxList candles period).length - period)).map (fun d => d.1))
              (z := 100) (fun x hx => (hmem x hx).2)
            rw [hlen] at this
            exact this
          have hdiv0 : 0 ≤ (((adxDxList candles period).drop
              ((adxDxList candles period).length - period)).map (fun d => d.1)).sum
              / (period : ℚ) := div_nonneg hsum0 hperpos.le
          have hdiv100 : (((adxDxList candles period).drop
              ((adxDxList candles period).length - period)).map (fun d => d.1)).sum
              / (period : ℚ) ≤ 100 := by
            rw [div_le_iff hperpos]
            linarith
          exact ⟨⟨hdiv0, hdiv100⟩, hti.2.1, hti.2.2⟩

/-- C5, witness: twenty degenerate but well-formed candles at period 14. -/
theorem adx_bounds_witness :
    ((1 ≤ 14 ∧ ∀ c ∈ List.replicate 20 cDefault, WellFormed c) ∧
     (0 ≤ (calculate_adx (List.replicate 20 cDefault) 14).1 ∧
        (calculate_adx (List.replicate 20 cDefault) 14).1 ≤ 100) ∧
     (0 ≤ (calculate_adx (List.replicate 20 cDefault) 14).2.1 ∧
        (calculate_adx (List.replicate 20 cDefault) 14).2.1 ≤ 100) ∧
     (0 ≤ (calculate_adx (List.replicate 20 cDefault) 14).2.2 ∧
        (calculate_adx (List.replicate 20 cDefault) 14).2.2 ≤ 100) ∧
     (∀ u ∈ adxDxList (List.replicate 20 cDefault) 14,
       (0 ≤ u.1 ∧ u.1 ≤ 100) ∧ (0 ≤ u.2.1 ∧ u.2.1 ≤ 100) ∧
       (0 ≤ u.2.2 ∧ u.2.2 ≤ 100))) := by
  have hwf : ∀ c ∈ List.replicate 20 cDefault, WellFormed c := by
    intro c hc
    rw [List.eq_of_mem_replicate hc]
    exact ⟨le_refl 0, le_refl 0, le_refl 0⟩
  exact ⟨⟨by norm_num, hwf⟩, adx_bounds (List.replicate 20 cDefault) 14 (by norm_num) hwf⟩
